import Mathlib

/-!
Shallow embedding of the `manifold_rs` facade
(`src/thirdparty/manifold-rs/src/manifold_rs.cpp` and `manifold_rs.h`):
wrapper handles `Manifold` and `Mesh` owning one kernel object each through a
unique pointer, and the flat-buffer projections `mesh_vertices` and
`mesh_indices`.  Scalar vertex components (`float` in the source) are kept as
an arbitrary type `α`, since the facade only copies them; triangle index
components (`int` components of `glm::ivec3`, pushed as `uint32_t`) are
modelled as `Nat`.  The owned `std::unique_ptr` of each wrapper is modelled as
an `Option`, `none` standing for a null pointer; the C++ constructors always
store a `make_unique` result, i.e. `some`.  The fatal `assert` in
`mesh_vertices` is modelled as the `none` outcome of an `Option` result.
-/

namespace ManifoldRs

/-- A three-component vector, as `glm::vec3` / `glm::ivec3` in the kernel. -/
structure Vec3 (α : Type) where
  x : α
  y : α
  z : α
deriving DecidableEq, Repr

/-- The kernel `::manifold::Mesh`: vertex positions, per-vertex normals and
triangle index triples (`vertPos`, `vertNormal`, `triVerts`).  A
default-constructed kernel mesh has all three vectors empty. -/
structure KernelMesh (α : Type) where
  vertPos : List (Vec3 α)
  vertNormal : List (Vec3 α)
  triVerts : List (Vec3 Nat)
deriving DecidableEq, Repr

/-- The default-constructed kernel mesh: empty vectors. -/
def KernelMesh.empty {α : Type} : KernelMesh α := ⟨[], [], []⟩

/-- Wrapper `manifold_rs::Manifold`: owns one kernel `::manifold::Manifold`
(opaque here, an arbitrary type `κ`) through `std::unique_ptr`, modelled as
`Option κ` with `none` for a null pointer. -/
structure Manifold (κ : Type) where
  manifold : Option κ

/-- `Manifold::Manifold()`: stores `make_unique<::manifold::Manifold>()`, a
freshly default-constructed kernel solid `emptyK`. -/
def Manifold.mkDefault {κ : Type} (emptyK : κ) : Manifold κ := ⟨some emptyK⟩

/-- `Manifold::Manifold(::manifold::Manifold &&m)`: adopts the moved-in kernel
value as the sole owned instance. -/
def Manifold.adopt {κ : Type} (k : κ) : Manifold κ := ⟨some k⟩

/-- Wrapper `manifold_rs::Mesh`: owns one kernel `::manifold::Mesh` through
`std::unique_ptr`, modelled as an `Option`. -/
structure Mesh (α : Type) where
  mesh : Option (KernelMesh α)

/-- `Mesh::Mesh()`: stores `make_unique<::manifold::Mesh>()`, a freshly
default-constructed (empty) kernel mesh. -/
def Mesh.mkDefault {α : Type} : Mesh α := ⟨some KernelMesh.empty⟩

/-- `Mesh::Mesh(::manifold::Mesh &&mesh)`: adopts the moved-in kernel mesh as
the sole owned instance. -/
def Mesh.adopt {α : Type} (km : KernelMesh α) : Mesh α := ⟨some km⟩

/-- `manifold_rs::sphere(double radius)`: builds the kernel solid through
`::manifold::Manifold::Sphere` (external, kept abstract as `kernelSphere`) and
wraps it in a newly allocated `Manifold`. -/
def sphere {δ κ : Type} (kernelSphere : δ → κ) (radius : δ) : Manifold κ :=
  Manifold.adopt (kernelSphere radius)

/-- `manifold_rs::cube(double x_size, double y_size, double z_size)`: builds
the kernel solid through `::manifold::Manifold::Cube` (external, abstract as
`kernelCube`) and wraps it. -/
def cube {δ κ : Type} (kernelCube : δ → δ → δ → κ) (x y z : δ) : Manifold κ :=
  Manifold.adopt (kernelCube x y z)

/-- The loop body of `mesh_vertices`: for each `i` push
`vertPos[i].x, .y, .z` then `vertNormal[i].x, .y, .z`.  Under the asserted
length equality the simultaneous recursion over both lists is exactly the
indexed loop of the source. -/
def interleave {α : Type} : List (Vec3 α) → List (Vec3 α) → List α
  | p :: ps, n :: ns => p.x :: p.y :: p.z :: n.x :: n.y :: n.z :: interleave ps ns
  | _, _ => []

/-- `manifold_rs::mesh_vertices(const Mesh &mesh)`, in terms of the kernel
mesh behind the wrapper's owned pointer.  The `assert` on
`vertPos.size() == vertNormal.size()` is a fatal consistency check, modelled
as the `none` result; on success the interleaved flat vector is returned. -/
def mesh_vertices {α : Type} (m : KernelMesh α) : Option (List α) :=
  if m.vertPos.length = m.vertNormal.length then
    some (interleave m.vertPos m.vertNormal)
  else
    none

/-- The loop body of `mesh_indices`: for each triangle push
`triVerts[i].x, .y, .z`. -/
def triIndices : List (Vec3 Nat) → List Nat
  | [] => []
  | t :: ts => t.x :: t.y :: t.z :: triIndices ts

/-- `manifold_rs::mesh_indices(const Mesh &mesh)`, in terms of the kernel mesh
behind the wrapper's owned pointer: the flat list of triangle index triples,
in stored order, with no check performed. -/
def mesh_indices {α : Type} (m : KernelMesh α) : List Nat :=
  triIndices m.triVerts

/-- `manifold_rs::mesh_from_manifold(const Manifold &manifold)` as a
state-passing translation: the solid is taken by const reference, its kernel
object queried with the const member `GetMesh()` (external, abstract as
`getMesh`), and the resulting kernel mesh is wrapped in a newly allocated
`Mesh`.  No statement of the body writes to the argument, so the returned
solid state is the input one. -/
def mesh_from_manifold {α κ : Type} (getMesh : κ → KernelMesh α)
    (man : Manifold κ) : Option (Mesh α) × Manifold κ :=
  (man.manifold.map (fun k => Mesh.adopt (getMesh k)), man)

/-- `mesh_vertices` as a state-passing translation over the wrapper: the mesh
is taken by const reference and only read; the output vector is a fresh local
copied into a new heap allocation. -/
def mesh_vertices_run {α : Type} (km : KernelMesh α) :
    Option (List α) × KernelMesh α :=
  (mesh_vertices km, km)

/-- `mesh_indices` as a state-passing translation over the wrapper: the mesh
is taken by const reference and only read. -/
def mesh_indices_run {α : Type} (km : KernelMesh α) :
    List Nat × KernelMesh α :=
  (mesh_indices km, km)

/-- Modelled from the spec: `export_mesh(filename, mesh)` is declared in the
public contract but its body is unimplemented (a no-op) in every version
present; `src/` only carries the `Material`/`ExportOptions` configuration
types.  Per spec sections 4.5, 6 and 7 it performs no file writing, never
raises and never crashes: over an abstract file-system state `σ` it returns
unit successfully and leaves the state untouched. -/
def export_mesh {α σ : Type} (filename : String) (m : Mesh α) (fs : σ) :
    Except String Unit × σ :=
  (Except.ok (), fs)

/-! ### Helper lemmas -/

theorem interleave_length {α : Type} :
    ∀ ps ns : List (Vec3 α), ps.length = ns.length →
      (interleave ps ns).length = 6 * ps.length
  | [], [], _ => rfl
  | [], _ :: _, h => by simp at h
  | _ :: _, [], h => by simp at h
  | p :: ps, n :: ns, h => by
    have ih := interleave_length ps ns (by simpa using h)
    simp [interleave, ih, Nat.mul_succ]

theorem triIndices_length : ∀ ts : List (Vec3 Nat),
    (triIndices ts).length = 3 * ts.length
  | [] => rfl
  | t :: ts => by
    have ih := triIndices_length ts
    simp [triIndices, ih, Nat.mul_succ]

theorem interleave_get {α : Type} :
    ∀ (ps ns : List (Vec3 α)) (i : Nat), i < ps.length → ps.length = ns.length →
      (interleave ps ns).get? (6 * i) = (ps.get? i).map Vec3.x ∧
      (interleave ps ns).get? (6 * i + 1) = (ps.get? i).map Vec3.y ∧
      (interleave ps ns).get? (6 * i + 2) = (ps.get? i).map Vec3.z ∧
      (interleave ps ns).get? (6 * i + 3) = (ns.get? i).map Vec3.x ∧
      (interleave ps ns).get? (6 * i + 4) = (ns.get? i).map Vec3.y ∧
      (interleave ps ns).get? (6 * i + 5) = (ns.get? i).map Vec3.z
  | [], _, i, hi, _ => by simp at hi
  | _ :: _, [], i, _, h => by simp at h
  | p :: ps, n :: ns, 0, _, _ => by
    refine ⟨rfl, rfl, rfl, rfl, rfl, rfl⟩
  | p :: ps, n :: ns, i + 1, hi, h => by
    have ih := interleave_get ps ns i (by simpa using Nat.lt_of_succ_lt_succ hi)
      (by simpa using h)
    have h6 : 6 * (i + 1) = 6 * i + 6 := by ring
    simpa [interleave, h6, Nat.add_assoc] using ih

theorem triIndices_get :
    ∀ (ts : List (Vec3 Nat)) (i : Nat), i < ts.length →
      (triIndices ts).get? (3 * i) = (ts.get? i).map Vec3.x ∧
      (triIndices ts).get? (3 * i + 1) = (ts.get? i).map Vec3.y ∧
      (triIndices ts).get? (3 * i + 2) = (ts.get? i).map Vec3.z
  | [], i, hi => by simp at hi
  | t :: ts, 0, _ => ⟨rfl, rfl, rfl⟩
  | t :: ts, i + 1, hi => by
    have ih := triIndices_get ts i (Nat.lt_of_succ_lt_succ hi)
    have h3 : 3 * (i + 1) = 3 * i + 3 := by ring
    simpa [triIndices, h3, Nat.add_assoc] using ih

theorem triIndices_mem_bound (c : Nat) :
    ∀ ts : List (Vec3 Nat),
      (∀ t ∈ ts, t.x < c ∧ t.y < c ∧ t.z < c) →
      ∀ j ∈ triIndices ts, j < c
  | [], _, j, hj => by simp [triIndices] at hj
  | t :: ts, hb, j, hj => by
    have ht := hb t (List.mem_cons_self t ts)
    have ih := triIndices_mem_bound c ts (fun u hu => hb u (List.mem_cons_of_mem t hu))
    simp only [triIndices, List.mem_cons] at hj
    rcases hj with h | h | h | h
    · exact h ▸ ht.1
    · exact h ▸ ht.2.1
    · exact h ▸ ht.2.2
    · exact ih j h

/-! ### Claim theorems -/

/-- C1: for every mesh whose vertex-position count equals its vertex-normal
count and every vertex index `i` below the vertex count, `mesh_vertices`
succeeds and its output holds, at flat positions `[6i, 6i+6)`, exactly the
`i`-th position's `x, y, z` followed by the `i`-th normal's `x, y, z`:
positions and normals interleaved per vertex. -/
theorem mesh_vertices_interleaved {α : Type} (m : KernelMesh α) (i : Nat)
    (hlen : m.vertPos.length = m.vertNormal.length)
    (hi : i < m.vertPos.length) :
    ∃ vs, mesh_vertices m = some vs ∧
      vs.get? (6 * i) = (m.vertPos.get? i).map Vec3.x ∧
      vs.get? (6 * i + 1) = (m.vertPos.get? i).map Vec3.y ∧
      vs.get? (6 * i + 2) = (m.vertPos.get? i).map Vec3.z ∧
      vs.get? (6 * i + 3) = (m.vertNormal.get? i).map Vec3.x ∧
      vs.get? (6 * i + 4) = (m.vertNormal.get? i).map Vec3.y ∧
      vs.get? (6 * i + 5) = (m.vertNormal.get? i).map Vec3.z :=
  ⟨interleave m.vertPos m.vertNormal, by simp [mesh_vertices, hlen],
    interleave_get m.vertPos m.vertNormal i hi hlen⟩

/-- Witness for C1 on a one-vertex mesh. -/
theorem mesh_vertices_interleaved_witness :
    ∃ vs, mesh_vertices (KernelMesh.mk (α := Nat) [⟨1, 2, 3⟩] [⟨4, 5, 6⟩] [])
        = some vs ∧
      vs.get? 0 = some 1 ∧ vs.get? 1 = some 2 ∧ vs.get? 2 = some 3 ∧
      vs.get? 3 = some 4 ∧ vs.get? 4 = some 5 ∧ vs.get? 5 = some 6 := by
  have h := mesh_vertices_interleaved
    (KernelMesh.mk (α := Nat) [⟨1, 2, 3⟩] [⟨4, 5, 6⟩] []) 0 rfl (by decide)
  simpa using h

/-- C2: for every mesh with equal position and normal counts, the
`mesh_vertices` output has length exactly `6 * vertex_count` and the
`mesh_indices` output has length exactly `3 * triangle_count`. -/
theorem mesh_buffer_lengths {α : Type} (m : KernelMesh α)
    (hlen : m.vertPos.length = m.vertNormal.length) :
    ∃ vs, mesh_vertices m = some vs ∧
      vs.length = 6 * m.vertPos.length ∧
      (mesh_indices m).length = 3 * m.triVerts.length :=
  ⟨interleave m.vertPos m.vertNormal, by simp [mesh_vertices, hlen],
    interleave_length m.vertPos m.vertNormal hlen,
    triIndices_length m.triVerts⟩

/-- Witness for C2 on a two-vertex, one-triangle mesh. -/
theorem mesh_buffer_lengths_witness :
    ∃ vs, mesh_vertices
        (KernelMesh.mk (α := Nat) [⟨1, 2, 3⟩, ⟨7, 8, 9⟩]
          [⟨4, 5, 6⟩, ⟨0, 0, 1⟩] [⟨0, 1, 1⟩]) = some vs ∧
      vs.length = 6 * 2 ∧
      (mesh_indices (KernelMesh.mk (α := Nat) [⟨1, 2, 3⟩, ⟨7, 8, 9⟩]
          [⟨4, 5, 6⟩, ⟨0, 0, 1⟩] [⟨0, 1, 1⟩])).length = 3 * 1 := by
  have h := mesh_buffer_lengths
    (KernelMesh.mk (α := Nat) [⟨1, 2, 3⟩, ⟨7, 8, 9⟩]
      [⟨4, 5, 6⟩, ⟨0, 0, 1⟩] [⟨0, 1, 1⟩]) rfl
  simpa using h

/-- C3: for every mesh and every triangle index `i` below the triangle count,
the `mesh_indices` output holds at flat positions `3i, 3i+1, 3i+2` exactly the
`i`-th triangle's three vertex indices in stored order. -/
theorem mesh_indices_triples {α : Type} (m : KernelMesh α) (i : Nat)
    (hi : i < m.triVerts.length) :
    (mesh_indices m).get? (3 * i) = (m.triVerts.get? i).map Vec3.x ∧
    (mesh_indices m).get? (3 * i + 1) = (m.triVerts.get? i).map Vec3.y ∧
    (mesh_indices m).get? (3 * i + 2) = (m.triVerts.get? i).map Vec3.z :=
  triIndices_get m.triVerts i hi

/-- Witness for C3 on a two-triangle mesh, at triangle index 1. -/
theorem mesh_indices_triples_witness :
    (mesh_indices (KernelMesh.mk (α := Nat) [] [] [⟨0, 1, 2⟩, ⟨2, 1, 3⟩])).get?
        3 = some 2 ∧
    (mesh_indices (KernelMesh.mk (α := Nat) [] [] [⟨0, 1, 2⟩, ⟨2, 1, 3⟩])).get?
        4 = some 1 ∧
    (mesh_indices (KernelMesh.mk (α := Nat) [] [] [⟨0, 1, 2⟩, ⟨2, 1, 3⟩])).get?
        5 = some 3 := by
  have h := mesh_indices_triples
    (KernelMesh.mk (α := Nat) [] [] [⟨0, 1, 2⟩, ⟨2, 1, 3⟩]) 1 (by decide)
  simpa using h

/-- C4: `mesh_vertices` enforces the count-equality precondition: when the
position and normal counts differ the call ends in the fatal assertion branch
(modelled `none`) instead of returning a value, and when they are equal that
branch is unreachable and a value is returned. -/
theorem mesh_vertices_assert {α : Type} (m : KernelMesh α) :
    (m.vertPos.length ≠ m.vertNormal.length → mesh_vertices m = none) ∧
    (m.vertPos.length = m.vertNormal.length →
      ∃ vs, mesh_vertices m = some vs) := by
  constructor
  · intro h
    simp [mesh_vertices, h]
  · intro h
    exact ⟨interleave m.vertPos m.vertNormal, by simp [mesh_vertices, h]⟩

/-- Witness for C4: a mesh with one position and no normal fails; the empty
mesh succeeds. -/
theorem mesh_vertices_assert_witness :
    mesh_vertices (KernelMesh.mk (α := Nat) [⟨0, 0, 0⟩] [] []) = none ∧
    ∃ vs, mesh_vertices (KernelMesh.mk (α := Nat) [] [] []) = some vs :=
  ⟨(mesh_vertices_assert (KernelMesh.mk (α := Nat) [⟨0, 0, 0⟩] [] [])).1
      (by decide),
    (mesh_vertices_assert (KernelMesh.mk (α := Nat) [] [] [])).2 rfl⟩

/-- C5: under the hypothesis that every stored triangle index is strictly
below the vertex count, every value in the `mesh_indices` output is strictly
below the vertex count.  (`mesh_indices` performs no check of its own: its
definition is an unconditional copy.) -/
theorem mesh_indices_in_range {α : Type} (m : KernelMesh α)
    (hb : ∀ t ∈ m.triVerts, t.x < m.vertPos.length ∧
      t.y < m.vertPos.length ∧ t.z < m.vertPos.length) :
    ∀ j ∈ mesh_indices m, j < m.vertPos.length :=
  triIndices_mem_bound m.vertPos.length m.triVerts hb

/-- Witness for C5: index value 1 appears in the output of a two-vertex mesh
and is below the vertex count 2. -/
theorem mesh_indices_in_range_witness :
    1 ∈ mesh_indices (KernelMesh.mk (α := Nat) [⟨0, 0, 0⟩, ⟨1, 1, 1⟩]
        [⟨0, 0, 1⟩, ⟨0, 0, 1⟩] [⟨0, 1, 1⟩]) ∧ 1 < 2 :=
  ⟨by decide,
    mesh_indices_in_range (KernelMesh.mk (α := Nat) [⟨0, 0, 0⟩, ⟨1, 1, 1⟩]
        [⟨0, 0, 1⟩, ⟨0, 0, 1⟩] [⟨0, 1, 1⟩]) (by decide) 1 (by decide)⟩

/-- C6: `mesh_from_manifold` takes the solid read-only and leaves its owned
kernel object unchanged, and `mesh_vertices` / `mesh_indices` leave the mesh
they read unchanged: in the state-passing translation of each body the
returned state equals the input state. -/
theorem facade_frame {α κ : Type} (getMesh : κ → KernelMesh α)
    (man : Manifold κ) (km : KernelMesh α) :
    (mesh_from_manifold getMesh man).2 = man ∧
    (mesh_vertices_run km).2 = km ∧
    (mesh_indices_run km).2 = km :=
  ⟨rfl, rfl, rfl⟩

/-- C7: every wrapper handle owns exactly one live kernel object (the owned
pointer is never null): default construction and adoption construction of
`Manifold` and `Mesh` store a `some`, the factory functions produce handles
storing a `some`, and `mesh_from_manifold` both preserves the solid's owned
pointer and wraps its result in a handle whose pointer is a `some`. -/
theorem handles_own_one {α δ κ : Type} (emptyK k : κ) (km : KernelMesh α)
    (kernelSphere : δ → κ) (kernelCube : δ → δ → δ → κ) (r x y z : δ)
    (getMesh : κ → KernelMesh α) (man : Manifold κ)
    (hman : man.manifold.isSome) :
    (Manifold.mkDefault emptyK).manifold.isSome ∧
    (Manifold.adopt k).manifold.isSome ∧
    (Mesh.mkDefault : Mesh α).mesh.isSome ∧
    (Mesh.adopt km).mesh.isSome ∧
    (sphere kernelSphere r).manifold.isSome ∧
    (cube kernelCube x y z).manifold.isSome ∧
    (mesh_from_manifold getMesh man).2.manifold.isSome ∧
    ∀ w, (mesh_from_manifold getMesh man).1 = some w → w.mesh.isSome := by
  obtain ⟨kk, hk⟩ := Option.isSome_iff_exists.mp hman
  refine ⟨rfl, rfl, rfl, rfl, rfl, rfl, by simpa [mesh_from_manifold] using hman,
    ?_⟩
  intro w hw
  simp only [mesh_from_manifold, hk, Option.map_some] at hw
  cases hw
  rfl

/-- Witness for C7 with the kernel solid type instantiated at `Unit`. -/
theorem handles_own_one_witness :
    (Manifold.mkDefault ()).manifold.isSome ∧
    (mesh_from_manifold (fun _ : Unit => (KernelMesh.empty : KernelMesh Nat))
      (Manifold.adopt ())).2.manifold.isSome :=
  ⟨(handles_own_one (α := Nat) (δ := Nat) () () KernelMesh.empty
      (fun _ => ()) (fun _ _ _ => ()) 1 1 1 1 (fun _ => KernelMesh.empty)
      (Manifold.adopt ()) rfl).1,
    (handles_own_one (α := Nat) (δ := Nat) () () KernelMesh.empty
      (fun _ => ()) (fun _ _ _ => ()) 1 1 1 1 (fun _ => KernelMesh.empty)
      (Manifold.adopt ()) rfl).2.2.2.2.2.2.1⟩

/-- C8: `mesh_from_manifold`, `mesh_vertices` and `mesh_indices` are
deterministic: equal inputs give equal outputs. -/
theorem facade_deterministic {α κ : Type} (getMesh : κ → KernelMesh α)
    (m₁ m₂ : KernelMesh α) (man₁ man₂ : Manifold κ)
    (hm : m₁ = m₂) (hman : man₁ = man₂) :
    mesh_vertices m₁ = mesh_vertices m₂ ∧
    mesh_indices m₁ = mesh_indices m₂ ∧
    mesh_from_manifold getMesh man₁ = mesh_from_manifold getMesh man₂ := by
  subst hm
  subst hman
  exact ⟨rfl, rfl, rfl⟩

/-- Witness for C8 at a concrete mesh and solid. -/
theorem facade_deterministic_witness :
    mesh_vertices (KernelMesh.mk (α := Nat) [⟨1, 2, 3⟩] [⟨4, 5, 6⟩] [])
        = mesh_vertices (KernelMesh.mk (α := Nat) [⟨1, 2, 3⟩] [⟨4, 5, 6⟩] []) ∧
    mesh_indices (KernelMesh.mk (α := Nat) [⟨1, 2, 3⟩] [⟨4, 5, 6⟩] [])
        = mesh_indices (KernelMesh.mk (α := Nat) [⟨1, 2, 3⟩] [⟨4, 5, 6⟩] []) ∧
    mesh_from_manifold (fun _ : Unit => (KernelMesh.empty : KernelMesh Nat))
        (Manifold.adopt ())
      = mesh_from_manifold (fun _ : Unit => (KernelMesh.empty : KernelMesh Nat))
        (Manifold.adopt ()) :=
  facade_deterministic (fun _ : Unit => (KernelMesh.empty : KernelMesh Nat))
    (KernelMesh.mk (α := Nat) [⟨1, 2, 3⟩] [⟨4, 5, 6⟩] [])
    (KernelMesh.mk (α := Nat) [⟨1, 2, 3⟩] [⟨4, 5, 6⟩] [])
    (Manifold.adopt ()) (Manifold.adopt ()) rfl rfl

/-- C9: `export_mesh` is a no-op for every filename and mesh: it returns
success, never fails, and leaves the file-system state untouched. -/
theorem export_mesh_noop {α σ : Type} (filename : String) (m : Mesh α)
    (fs : σ) : export_mesh filename m fs = (Except.ok (), fs) :=
  rfl

/-- C10: a default-constructed `Mesh` wraps the empty kernel mesh, and on it
`mesh_vertices` returns an empty sequence (no assertion failure) and
`mesh_indices` returns an empty sequence. -/
theorem default_mesh_empty_buffers {α : Type} :
    (Mesh.mkDefault : Mesh α).mesh = some KernelMesh.empty ∧
    mesh_vertices (KernelMesh.empty : KernelMesh α) = some [] ∧
    mesh_indices (KernelMesh.empty : KernelMesh α) = [] :=
  ⟨rfl, rfl, rfl⟩

end ManifoldRs
